import Mathlib

deriving instance DecidableEq for Except

set_option allowUnsafeReducibility true
attribute [local semireducible] Rat.mul Rat.add Rat.sub Rat.neg Rat.div Rat.inv

/-!
Verification of the KodBank account-ledger core.

The model embeds, shallowly:
* the database schema and stored procedures of the schema migration file
  (`BankUser`, `Transactions`, `validate_transfer`, `execute_transfer`,
  `deposit_money`, `withdraw_money`, and the table constraints
  `chk_balance_non_negative`, `chk_amount_positive`), and
* the service layer `backend/src/services/bankService.js`
  (`transferMoney`, `withdrawMoney`, `getBalance`, `getTransactionDetails`)
  together with `backend/src/models/transactionModel.js` (`executeTransfer`).

Monetary amounts are modelled as rationals (the source stores DECIMAL(15,2)
and computes on exact decimal values).  Stored-procedure exceptions and
service-layer `throw new Error(...)` become an error enumeration keyed by the
distinct message strings of the source; a PostgreSQL CHECK-constraint
violation (which aborts and rolls back the enclosing transaction) is the
`checkViolation` error.  A transaction that raises leaves the state
unchanged: in the model an operation returns `Except BankError (Nat × BankState)`
and an `error` result carries no new state.
-/

namespace KodBank

/-- The `transaction_type` column: 'transfer', 'deposit' or 'withdrawal'. -/
inductive TxKind
  | transfer
  | deposit
  | withdrawal
deriving DecidableEq, Repr

/-- The `status` column: 'completed', 'pending' or 'failed'. -/
inductive TxStatus
  | completed
  | pending
  | failed
deriving DecidableEq, Repr

/-- Error outcomes, one per distinct exception / error-message string raised by
the stored procedures and the service layer.  The comments give the source
message each constructor stands for. -/
inductive BankError
  | amountNotPositive      -- 'Amount must be a positive number' / 'Amount must be positive'
  | maxTransferExceeded    -- 'Maximum transfer amount is 10,000'
  | tooManyDecimals        -- 'Amount can have maximum 2 decimal places'
  | selfTransfer           -- 'Cannot transfer to yourself'
  | senderNotFound         -- 'Sender account not found'
  | recipientNotFound      -- 'Recipient not found'
  | userNotFound           -- 'User not found' / 'Customer not found'
  | insufficientBalance    -- 'Insufficient balance'
  | invalidTransfer        -- 'Invalid transfer' (RAISE EXCEPTION in execute_transfer)
  | maxWithdrawalExceeded  -- 'Maximum withdrawal amount is 25,000'
  | checkViolation         -- a table CHECK constraint aborted the transaction
  | transactionNotFound    -- 'Transaction not found'
  | accessDenied           -- 'Access denied: Transaction does not belong to this user'
  | limitOutOfRange        -- 'Limit must be between 1 and 100'
deriving DecidableEq, Repr

/-- A row of the `BankUser` table (the columns the ledger core reads). -/
structure Account where
  customer_id : Nat
  name : String
  balance : ℚ
deriving DecidableEq, Repr

/-- A row of the `Transactions` table.  `from_customer_id` is NOT NULL in the
schema, `to_customer_id` is nullable. -/
structure Transaction where
  transaction_id : Nat
  from_customer_id : Nat
  to_customer_id : Option Nat
  amount : ℚ
  transaction_type : TxKind
  status : TxStatus
  description : String
deriving DecidableEq, Repr

/-- The shared durable store: the `BankUser` rows, the append-only
`Transactions` rows, and the next value of the `transaction_id` sequence. -/
structure BankState where
  accounts : List Account
  ledger : List Transaction
  nextTxId : Nat
deriving DecidableEq, Repr

/-- `SELECT ... FROM BankUser WHERE customer_id = cid` (primary-key lookup). -/
def findAccount (l : List Account) (cid : Nat) : Option Account :=
  l.find? (fun a => a.customer_id == cid)

/-- The row image produced by
`UPDATE BankUser SET balance = balance + d WHERE customer_id = cid`. -/
def deltaMap (l : List Account) (cid : Nat) (d : ℚ) : List Account :=
  l.map (fun a => if a.customer_id == cid then { a with balance := a.balance + d } else a)

/-- The `chk_balance_non_negative` CHECK constraint, evaluated on every row
written by an UPDATE targeting `cid`. -/
def balanceCheckOk (l : List Account) (cid : Nat) : Bool :=
  l.all (fun a => !(a.customer_id == cid) || decide (0 ≤ a.balance))

/-- One balance UPDATE under the `chk_balance_non_negative` constraint: the
write succeeds only if no written row goes negative; otherwise the enclosing
transaction aborts (`checkViolation`). -/
def applyDelta (l : List Account) (cid : Nat) (d : ℚ) : Except BankError (List Account) :=
  let lNew := deltaMap l cid d
  if balanceCheckOk lNew cid then .ok lNew else .error .checkViolation

/-- The stored procedure `validate_transfer`: sender exists; recipient exists
when non-NULL; sender balance is not below the amount; not a self-transfer
(the self-comparison is vacuous when the recipient is NULL, as in SQL). -/
def validate_transfer (st : BankState) (pFrom : Nat) (pTo : Option Nat) (amount : ℚ) : Bool :=
  match findAccount st.accounts pFrom with
  | none => false
  | some fromAcc =>
    match pTo with
    | some t =>
      if (findAccount st.accounts t).isSome = false then false
      else if fromAcc.balance < amount then false
      else if pFrom = t then false
      else true
    | none =>
      if fromAcc.balance < amount then false
      else true

/-- The stored procedure `execute_transfer`.  The first component records the
row locks taken by the `SELECT ... FOR UPDATE` statements, in acquisition
order: the sender row first, then the recipient row when non-NULL.  After
locking, the procedure re-validates, debits the sender, credits the recipient,
and INSERTs the 'transfer'/'completed' row (under `chk_amount_positive`,
which aborts the whole transaction for a non-positive amount). -/
def execute_transfer (st : BankState) (pFrom : Nat) (pTo : Option Nat) (amount : ℚ)
    (desc : String) : List Nat × Except BankError (Nat × BankState) :=
  (pFrom :: pTo.toList,
    if validate_transfer st pFrom pTo amount then
      match applyDelta st.accounts pFrom (-amount) with
      | .error e => .error e
      | .ok acc1 =>
        match (match pTo with
               | some t => applyDelta acc1 t amount
               | none => .ok acc1) with
        | .error e => .error e
        | .ok acc2 =>
          if amount ≤ 0 then .error .checkViolation
          else .ok (st.nextTxId,
            { accounts := acc2,
              ledger := st.ledger ++
                [{ transaction_id := st.nextTxId, from_customer_id := pFrom,
                   to_customer_id := pTo, amount := amount,
                   transaction_type := .transfer, status := .completed,
                   description := desc }],
              nextTxId := st.nextTxId + 1 })
    else .error .invalidTransfer)

/-- The stored procedure `deposit_money`: positive amount, customer exists,
credit the account, INSERT the 'deposit' row with `from_customer_id` set to
the acting customer and `to_customer_id` NULL. -/
def deposit_money (st : BankState) (cid : Nat) (amount : ℚ) (desc : String) :
    Except BankError (Nat × BankState) :=
  if amount ≤ 0 then .error .amountNotPositive
  else match findAccount st.accounts cid with
    | none => .error .userNotFound
    | some _ =>
      match applyDelta st.accounts cid amount with
      | .error e => .error e
      | .ok acc =>
        .ok (st.nextTxId,
          { accounts := acc,
            ledger := st.ledger ++
              [{ transaction_id := st.nextTxId, from_customer_id := cid,
                 to_customer_id := none, amount := amount,
                 transaction_type := .deposit, status := .completed,
                 description := desc }],
            nextTxId := st.nextTxId + 1 })

/-- The stored procedure `withdraw_money`: positive amount, customer exists,
balance at least the amount (else 'Insufficient balance'), debit the account,
INSERT the 'withdrawal' row with `to_customer_id` NULL. -/
def withdraw_money (st : BankState) (cid : Nat) (amount : ℚ) (desc : String) :
    Except BankError (Nat × BankState) :=
  if amount ≤ 0 then .error .amountNotPositive
  else match findAccount st.accounts cid with
    | none => .error .userNotFound
    | some acc =>
      if acc.balance < amount then .error .insufficientBalance
      else match applyDelta st.accounts cid (-amount) with
        | .error e => .error e
        | .ok accs =>
          .ok (st.nextTxId,
            { accounts := accs,
              ledger := st.ledger ++
                [{ transaction_id := st.nextTxId, from_customer_id := cid,
                   to_customer_id := none, amount := amount,
                   transaction_type := .withdrawal, status := .completed,
                   description := desc }],
              nextTxId := st.nextTxId + 1 })

/-- The transfer cap of `bankService.transferMoney` (10,000 major units). -/
def MAX_TRANSFER : ℚ := 10000

/-- The withdrawal cap of `bankService.withdrawMoney` (25,000 major units). -/
def MAX_WITHDRAWAL : ℚ := 25000

/-- The service-layer decimal-precision check on an amount: at most 2 decimal
places, i.e. 100 times the amount is an integer. -/
def hasAtMost2Decimals (q : ℚ) : Bool := (q * 100).den == 1

/-- `transactionModel.executeTransfer`: inside one storage transaction it runs
`validate_transfer` (throwing 'Invalid transfer' when it reports false) and
then the `execute_transfer` stored procedure. -/
def executeTransfer (st : BankState) (fromCustomerId toCustomerId : Nat) (amount : ℚ)
    (desc : String) : Except BankError (Nat × BankState) :=
  if validate_transfer st fromCustomerId (some toCustomerId) amount then
    (execute_transfer st fromCustomerId (some toCustomerId) amount desc).2
  else .error .invalidTransfer

/-- `bankService.transferMoney`, with its validation steps in source order:
positive amount; amount at most 10,000; at most 2 decimal places; not a
self-transfer; sender exists; recipient exists; advisory balance check; then
`transactionModel.executeTransfer`.  On success the model returns the new
transaction id and the committed state. -/
def transferMoney (st : BankState) (customerId toCustomerId : Nat) (amount : ℚ)
    (description : String) : Except BankError (Nat × BankState) :=
  if amount ≤ 0 then .error .amountNotPositive
  else if MAX_TRANSFER < amount then .error .maxTransferExceeded
  else if hasAtMost2Decimals amount = false then .error .tooManyDecimals
  else if customerId = toCustomerId then .error .selfTransfer
  else match findAccount st.accounts customerId with
    | none => .error .senderNotFound
    | some sender =>
      match findAccount st.accounts toCustomerId with
      | none => .error .recipientNotFound
      | some _ =>
        if sender.balance < amount then .error .insufficientBalance
        else executeTransfer st customerId toCustomerId amount description

/-- `bankService.withdrawMoney`: positive amount; amount at most 25,000; user
exists; advisory balance check ('Insufficient balance'); then the
`withdraw_money` stored procedure via `transactionModel.executeWithdrawal`. -/
def withdrawMoney (st : BankState) (customerId : Nat) (amount : ℚ) (description : String) :
    Except BankError (Nat × BankState) :=
  if amount ≤ 0 then .error .amountNotPositive
  else if MAX_WITHDRAWAL < amount then .error .maxWithdrawalExceeded
  else match findAccount st.accounts customerId with
    | none => .error .userNotFound
    | some user =>
      if user.balance < amount then .error .insufficientBalance
      else withdraw_money st customerId amount description

/-- The data object returned by `bankService.getBalance`: customer id, name,
balance, and `last_updated = new Date().toISOString()`, i.e. the wall-clock
time of the call (modelled as a numeric timestamp passed in). -/
structure BalanceData where
  customer_id : Nat
  name : String
  balance : ℚ
  last_updated : Nat
deriving DecidableEq, Repr

/-- `bankService.getBalance`: fails when the user does not exist, otherwise
returns the customer id, name, current balance, and the call-time
`last_updated` timestamp.  Read-only: it takes no state back out. -/
def getBalance (st : BankState) (customerId : Nat) (now : Nat) :
    Except BankError BalanceData :=
  match findAccount st.accounts customerId with
  | none => .error .userNotFound
  | some user => .ok ⟨user.customer_id, user.name, user.balance, now⟩

/-- The timestamp-free part of a `getBalance` result. -/
def balanceView : Except BankError BalanceData → Except BankError (Nat × String × ℚ)
  | .ok d => .ok (d.customer_id, d.name, d.balance)
  | .error e => .error e

/-- The WHERE clause of `transactionModel.getUserTransactions`: the caller is
a party of the entry (`from_customer_id = $1 OR to_customer_id = $1`), plus
the optional `transaction_type` and `status` equality filters. -/
def matchesHistoryFilter (cid : Nat) (tf : Option TxKind) (sf : Option TxStatus)
    (t : Transaction) : Bool :=
  (t.from_customer_id == cid || t.to_customer_id == some cid) &&
  (match tf with | some k => t.transaction_type == k | none => true) &&
  (match sf with | some s => t.status == s | none => true)

/-- `transactionModel.getUserTransactions`: the filtered rows in
`ORDER BY transaction_date DESC` with `LIMIT limit OFFSET offset`.  The
`transaction_date` column is assigned at commit time, so date-descending
order is the reverse of the ledger's append order; the model's rows carry no
separate date column, so the optional `start_date`/`end_date` bounds (which
compare against that column) are not part of the embedded argument list. -/
def getUserTransactions (ledger : List Transaction) (cid limit offset : Nat)
    (tf : Option TxKind) (sf : Option TxStatus) : List Transaction :=
  (((ledger.filter (matchesHistoryFilter cid tf sf)).reverse).drop offset).take limit

/-- `transactionModel.getUserTransactionCount`: COUNT(*) over the same WHERE
clause, ignoring pagination. -/
def getUserTransactionCount (ledger : List Transaction) (cid : Nat)
    (tf : Option TxKind) (sf : Option TxStatus) : Nat :=
  (ledger.filter (matchesHistoryFilter cid tf sf)).length

/-- The data object returned by `bankService.getTransactionHistory`: the page
of entries plus the pagination block `{limit, offset, total, has_more}`. -/
structure HistoryPage where
  transactions : List Transaction
  limit : Nat
  offset : Nat
  total : Nat
  has_more : Bool
deriving DecidableEq, Repr

/-- `bankService.getTransactionHistory` (the listHistory read): rejects a
limit outside [1, 100], then returns the filtered, date-descending, paginated
entries together with the total count and `has_more = offset + limit < total`.
The source's non-negative-offset and valid-type/valid-status checks only
reject ill-typed strings, which the `Nat` / `Option TxKind` / `Option TxStatus`
arguments cannot express.  Read-only: it runs only SELECT queries and reads
no clock. -/
def getTransactionHistory (st : BankState) (customerId limit offset : Nat)
    (tf : Option TxKind) (sf : Option TxStatus) : Except BankError HistoryPage :=
  if limit < 1 ∨ 100 < limit then .error .limitOutOfRange
  else
    .ok { transactions := getUserTransactions st.ledger customerId limit offset tf sf,
          limit := limit,
          offset := offset,
          total := getUserTransactionCount st.ledger customerId tf sf,
          has_more := decide (offset + limit < getUserTransactionCount st.ledger customerId tf sf) }

/-- `SELECT ... FROM Transactions WHERE transaction_id = id` (primary-key
lookup), as used by `transactionModel.findById`. -/
def findTransaction (st : BankState) (transactionId : Nat) : Option Transaction :=
  st.ledger.find? (fun t => t.transaction_id == transactionId)

/-- `bankService.getTransactionDetails`: looks the entry up; fails with
'Transaction not found' when absent; fails with 'Access denied' when the
caller is neither the `from_customer_id` nor the `to_customer_id` of the
entry; otherwise returns the entry. -/
def getTransactionDetails (st : BankState) (customerId transactionId : Nat) :
    Except BankError Transaction :=
  match findTransaction st transactionId with
  | none => .error .transactionNotFound
  | some t =>
    if t.from_customer_id ≠ customerId ∧ t.to_customer_id ≠ some customerId then
      .error .accessDenied
    else .ok t

/-- One committed engine call: a deposit, a withdrawal, or a transfer with a
non-NULL recipient (the service layer always supplies one). -/
inductive Op
  | dep (cid : Nat) (amount : ℚ) (desc : String)
  | wd (cid : Nat) (amount : ℚ) (desc : String)
  | tr (fromId toId : Nat) (amount : ℚ) (desc : String)
deriving DecidableEq, Repr

/-- Whether an operation is a transfer. -/
def Op.isTransfer : Op → Bool
  | .tr _ _ _ _ => true
  | _ => false

/-- Run one engine operation; a raised exception rolls the transaction back,
leaving the state unchanged. -/
def applyOp (st : BankState) (op : Op) : BankState :=
  match op with
  | .dep c a d =>
    match deposit_money st c a d with
    | .ok (_, st2) => st2
    | .error _ => st
  | .wd c a d =>
    match withdraw_money st c a d with
    | .ok (_, st2) => st2
    | .error _ => st
  | .tr f t a d =>
    match (execute_transfer st f (some t) a d).2 with
    | .ok (_, st2) => st2
    | .error _ => st

/-- Run a sequence of committed engine operations in order. -/
def applyOps (st : BankState) (ops : List Op) : BankState :=
  ops.foldl applyOp st

/-- All stored balances are non-negative (the `chk_balance_non_negative`
invariant, read off the `BankUser` rows). -/
def NonNeg (st : BankState) : Prop := ∀ a ∈ st.accounts, 0 ≤ a.balance

instance (st : BankState) : Decidable (NonNeg st) := by
  unfold NonNeg; infer_instance

/-- The sum of all stored balances. -/
def sumBalances (st : BankState) : ℚ := (st.accounts.map (fun a => a.balance)).sum

/-- The list of customer ids of the stored accounts. -/
def accountIds (l : List Account) : List Nat := l.map (fun a => a.customer_id)

theorem accountIds_cons (a : Account) (l : List Account) :
    accountIds (a :: l) = a.customer_id :: accountIds l := rfl

theorem deltaMap_cons (a : Account) (l : List Account) (cid : Nat) (d : ℚ) :
    deltaMap (a :: l) cid d =
      (if a.customer_id == cid then { a with balance := a.balance + d } else a) ::
        deltaMap l cid d := rfl

theorem deltaMap_ids (l : List Account) (cid : Nat) (d : ℚ) :
    accountIds (deltaMap l cid d) = accountIds l := by
  induction l with
  | nil => rfl
  | cons a l ih =>
    rw [deltaMap_cons, accountIds_cons, accountIds_cons, ih]
    by_cases h : a.customer_id == cid
    · rw [if_pos h]
    · rw [if_neg h]

theorem deltaMap_of_not_mem (l : List Account) (cid : Nat) (d : ℚ)
    (h : cid ∉ accountIds l) : deltaMap l cid d = l := by
  induction l with
  | nil => rfl
  | cons a l ih =>
    rw [accountIds_cons, List.mem_cons, not_or] at h
    rw [deltaMap_cons, if_neg (fun hc => h.1 (beq_iff_eq.mp hc).symm), ih h.2]

theorem deltaMap_sum (l : List Account) (cid : Nat) (d : ℚ)
    (hnd : (accountIds l).Nodup) (hmem : cid ∈ accountIds l) :
    ((deltaMap l cid d).map (fun a => a.balance)).sum
      = (l.map (fun a => a.balance)).sum + d := by
  induction l with
  | nil => simp [accountIds] at hmem
  | cons a l ih =>
    rw [accountIds_cons, List.nodup_cons] at hnd
    rw [deltaMap_cons]
    by_cases h : a.customer_id = cid
    · have hnot : cid ∉ accountIds l := h ▸ hnd.1
      rw [if_pos (beq_iff_eq.mpr h), deltaMap_of_not_mem l cid d hnot,
        List.map_cons, List.map_cons, List.sum_cons, List.sum_cons]
      ring
    · have hmem2 : cid ∈ accountIds l := by
        rcases List.mem_cons.mp (accountIds_cons a l ▸ hmem) with h1 | h1
        · exact absurd h1.symm h
        · exact h1
      rw [if_neg (by simpa using h), List.map_cons, List.map_cons, List.sum_cons,
        List.sum_cons, ih hnd.2 hmem2]
      ring

theorem applyDelta_ok (l l2 : List Account) (cid : Nat) (d : ℚ)
    (h : applyDelta l cid d = .ok l2) :
    l2 = deltaMap l cid d ∧ balanceCheckOk (deltaMap l cid d) cid = true := by
  simp only [applyDelta] at h
  split at h
  · exact ⟨(Except.ok.injEq _ _).mp h |>.symm, by assumption⟩
  · exact absurd h (by simp)

theorem applyDelta_nonneg (l l2 : List Account) (cid : Nat) (d : ℚ)
    (hl : ∀ a ∈ l, 0 ≤ a.balance) (h : applyDelta l cid d = .ok l2) :
    ∀ a ∈ l2, 0 ≤ a.balance := by
  obtain ⟨rfl, hchk⟩ := applyDelta_ok l l2 cid d h
  intro a ha
  rw [balanceCheckOk, List.all_eq_true] at hchk
  by_cases hid : a.customer_id == cid
  · have := hchk a ha
    simp only [hid, Bool.not_true, Bool.false_or, decide_eq_true_eq] at this
    exact this
  · rcases List.mem_map.mp ha with ⟨b, hb, hba⟩
    by_cases hbid : b.customer_id == cid
    · rw [if_pos hbid] at hba
      exact absurd (hba ▸ hbid) hid
    · rw [if_neg hbid] at hba
      exact hba ▸ hl b hb

theorem findAccount_mem_ids (l : List Account) (cid : Nat) (a : Account)
    (h : findAccount l cid = some a) : cid ∈ accountIds l := by
  unfold findAccount at h
  have hmem : a ∈ l := List.mem_of_find?_eq_some h
  have hid := List.find?_some h
  exact List.mem_map.mpr ⟨a, hmem, by simpa using hid⟩

theorem findAccount_isSome_mem_ids (l : List Account) (cid : Nat)
    (h : (findAccount l cid).isSome = true) : cid ∈ accountIds l := by
  rcases Option.isSome_iff_exists.mp h with ⟨a, ha⟩
  exact findAccount_mem_ids l cid a ha

theorem validate_transfer_some_true (st : BankState) (f t : Nat) (amount : ℚ)
    (h : validate_transfer st f (some t) amount = true) :
    (findAccount st.accounts f).isSome = true ∧ (findAccount st.accounts t).isSome = true := by
  unfold validate_transfer at h
  cases hf : findAccount st.accounts f with
  | none => rw [hf] at h; exact absurd h (by simp)
  | some fa =>
    rw [hf] at h
    replace h : (if (findAccount st.accounts t).isSome = false then false
        else if fa.balance < amount then false
        else if f = t then false else true) = true := h
    refine ⟨by simp [hf], ?_⟩
    by_contra hc
    rw [if_pos (Bool.not_eq_true _ ▸ hc)] at h
    exact absurd h (by simp)

theorem execute_transfer_ok_inv (st st2 : BankState) (f : Nat) (pTo : Option Nat)
    (amount : ℚ) (desc : String) (i : Nat)
    (h : (execute_transfer st f pTo amount desc).2 = .ok (i, st2)) :
    validate_transfer st f pTo amount = true ∧
    ∃ acc1, applyDelta st.accounts f (-amount) = .ok acc1 ∧
    ∃ acc2, (match pTo with
             | some t => applyDelta acc1 t amount
             | none => Except.ok acc1) = .ok acc2 ∧
      ¬ amount ≤ 0 ∧ i = st.nextTxId ∧
      st2 = { accounts := acc2,
              ledger := st.ledger ++
                [{ transaction_id := st.nextTxId, from_customer_id := f,
                   to_customer_id := pTo, amount := amount,
                   transaction_type := .transfer, status := .completed,
                   description := desc }],
              nextTxId := st.nextTxId + 1 } := by
  simp only [execute_transfer] at h
  split at h
  · split at h
    · exact absurd h (by simp)
    · split at h
      · exact absurd h (by simp)
      · split at h
        · exact absurd h (by simp)
        · rcases (Except.ok.injEq _ _).mp h with hpair
          refine ⟨by assumption, _, by assumption, _, by assumption, by assumption,
            (Prod.mk.injEq _ _ _ _).mp hpair |>.1.symm,
            (Prod.mk.injEq _ _ _ _).mp hpair |>.2.symm⟩
  · exact absurd h (by simp)

theorem deposit_money_ok_inv (st st2 : BankState) (cid : Nat) (amount : ℚ)
    (desc : String) (i : Nat) (h : deposit_money st cid amount desc = .ok (i, st2)) :
    ¬ amount ≤ 0 ∧
    ∃ acc, applyDelta st.accounts cid amount = .ok acc ∧
      i = st.nextTxId ∧
      st2 = { accounts := acc,
              ledger := st.ledger ++
                [{ transaction_id := st.nextTxId, from_customer_id := cid,
                   to_customer_id := none, amount := amount,
                   transaction_type := .deposit, status := .completed,
                   description := desc }],
              nextTxId := st.nextTxId + 1 } := by
  simp only [deposit_money] at h
  split at h
  · exact absurd h (by simp)
  · split at h
    · exact absurd h (by simp)
    · split at h
      · exact absurd h (by simp)
      · rcases (Except.ok.injEq _ _).mp h with hpair
        exact ⟨by assumption, _, by assumption,
          (Prod.mk.injEq _ _ _ _).mp hpair |>.1.symm,
          (Prod.mk.injEq _ _ _ _).mp hpair |>.2.symm⟩

theorem withdraw_money_ok_inv (st st2 : BankState) (cid : Nat) (amount : ℚ)
    (desc : String) (i : Nat) (h : withdraw_money st cid amount desc = .ok (i, st2)) :
    ¬ amount ≤ 0 ∧
    ∃ acc, applyDelta st.accounts cid (-amount) = .ok acc ∧
      i = st.nextTxId ∧
      st2 = { accounts := acc,
              ledger := st.ledger ++
                [{ transaction_id := st.nextTxId, from_customer_id := cid,
                   to_customer_id := none, amount := amount,
                   transaction_type := .withdrawal, status := .completed,
                   description := desc }],
              nextTxId := st.nextTxId + 1 } := by
  simp only [withdraw_money] at h
  split at h
  · exact absurd h (by simp)
  · split at h
    · exact absurd h (by simp)
    · split at h
      · exact absurd h (by simp)
      · split at h
        · exact absurd h (by simp)
        · rcases (Except.ok.injEq _ _).mp h with hpair
          exact ⟨by assumption, _, by assumption,
            (Prod.mk.injEq _ _ _ _).mp hpair |>.1.symm,
            (Prod.mk.injEq _ _ _ _).mp hpair |>.2.symm⟩

theorem applyOp_nonneg (st : BankState) (op : Op) (h : NonNeg st) : NonNeg (applyOp st op) := by
  cases op with
  | dep c a d =>
    simp only [applyOp]
    cases hr : deposit_money st c a d with
    | error e => exact h
    | ok p =>
      obtain ⟨i, st2⟩ := p
      obtain ⟨-, acc, hda, -, hst2⟩ := deposit_money_ok_inv st st2 c a d i hr
      subst hst2
      exact fun x hx => applyDelta_nonneg _ _ _ _ h hda x hx
  | wd c a d =>
    simp only [applyOp]
    cases hr : withdraw_money st c a d with
    | error e => exact h
    | ok p =>
      obtain ⟨i, st2⟩ := p
      obtain ⟨-, acc, hda, -, hst2⟩ := withdraw_money_ok_inv st st2 c a d i hr
      subst hst2
      exact fun x hx => applyDelta_nonneg _ _ _ _ h hda x hx
  | tr f t a d =>
    simp only [applyOp]
    cases hr : (execute_transfer st f (some t) a d).2 with
    | error e => exact h
    | ok p =>
      obtain ⟨i, st2⟩ := p
      obtain ⟨-, acc1, h1, acc2, h2, -, -, hst2⟩ :=
        execute_transfer_ok_inv st st2 f (some t) a d i hr
      subst hst2
      have hn1 := applyDelta_nonneg _ _ _ _ h h1
      exact fun x hx => applyDelta_nonneg _ _ _ _ hn1 h2 x hx

theorem applyOp_ids (st : BankState) (op : Op) :
    accountIds (applyOp st op).accounts = accountIds st.accounts := by
  cases op with
  | dep c a d =>
    simp only [applyOp]
    cases hr : deposit_money st c a d with
    | error e => rfl
    | ok p =>
      obtain ⟨i, st2⟩ := p
      obtain ⟨-, acc, hda, -, hst2⟩ := deposit_money_ok_inv st st2 c a d i hr
      obtain ⟨rfl, -⟩ := applyDelta_ok _ _ _ _ hda
      subst hst2
      exact deltaMap_ids _ _ _
  | wd c a d =>
    simp only [applyOp]
    cases hr : withdraw_money st c a d with
    | error e => rfl
    | ok p =>
      obtain ⟨i, st2⟩ := p
      obtain ⟨-, acc, hda, -, hst2⟩ := withdraw_money_ok_inv st st2 c a d i hr
      obtain ⟨rfl, -⟩ := applyDelta_ok _ _ _ _ hda
      subst hst2
      exact deltaMap_ids _ _ _
  | tr f t a d =>
    simp only [applyOp]
    cases hr : (execute_transfer st f (some t) a d).2 with
    | error e => rfl
    | ok p =>
      obtain ⟨i, st2⟩ := p
      obtain ⟨-, acc1, h1, acc2, h2, -, -, hst2⟩ :=
        execute_transfer_ok_inv st st2 f (some t) a d i hr
      obtain ⟨rfl, -⟩ := applyDelta_ok _ _ _ _ h1
      have h2a : applyDelta (deltaMap st.accounts f (-a)) t a = .ok acc2 := h2
      obtain ⟨rfl, -⟩ := applyDelta_ok _ _ _ _ h2a
      subst hst2
      show accountIds (deltaMap (deltaMap st.accounts f (-a)) t a) = _
      rw [deltaMap_ids, deltaMap_ids]

theorem applyOp_transfer_sum (st : BankState) (f t : Nat) (a : ℚ) (d : String)
    (hnd : (accountIds st.accounts).Nodup) :
    sumBalances (applyOp st (Op.tr f t a d)) = sumBalances st := by
  simp only [applyOp]
  cases hr : (execute_transfer st f (some t) a d).2 with
  | error e => rfl
  | ok p =>
    obtain ⟨i, st2⟩ := p
    obtain ⟨hval, acc1, h1, acc2, h2, -, -, hst2⟩ :=
      execute_transfer_ok_inv st st2 f (some t) a d i hr
    obtain ⟨hf, ht⟩ := validate_transfer_some_true st f t a hval
    have hmemf : f ∈ accountIds st.accounts := findAccount_isSome_mem_ids _ _ hf
    have hmemt : t ∈ accountIds st.accounts := findAccount_isSome_mem_ids _ _ ht
    obtain ⟨rfl, -⟩ := applyDelta_ok _ _ _ _ h1
    have h2a : applyDelta (deltaMap st.accounts f (-a)) t a = .ok acc2 := h2
    obtain ⟨rfl, -⟩ := applyDelta_ok _ _ _ _ h2a
    subst hst2
    show ((deltaMap (deltaMap st.accounts f (-a)) t a).map (fun x => x.balance)).sum
      = sumBalances st
    rw [deltaMap_sum _ _ _ (by rw [deltaMap_ids]; exact hnd) (by rw [deltaMap_ids]; exact hmemt),
      deltaMap_sum _ _ _ hnd hmemf]
    unfold sumBalances
    ring

/-- Concrete store for the transfer scenario: account 1 holds 5000, account 2
holds 3000, empty ledger. -/
def scenarioAB : BankState :=
  { accounts := [⟨1, "A", 5000⟩, ⟨2, "B", 3000⟩], ledger := [], nextTxId := 1 }

/-- Concrete store with a single account of balance 100. -/
def lowBalance : BankState :=
  { accounts := [⟨1, "A", 100⟩], ledger := [], nextTxId := 1 }

/-- Concrete store where the sender (account 1, balance 100) cannot cover a
200 transfer to account 2 (balance 0). -/
def racedState : BankState :=
  { accounts := [⟨1, "A", 100⟩, ⟨2, "B", 0⟩], ledger := [], nextTxId := 1 }

/-- C1: starting from any store whose balances are all non-negative, every
sequence of committed deposit / withdraw / transfer engine operations leaves
every account balance non-negative; no withdraw/transfer sequence can drive a
balance below zero (failed operations roll back and change nothing). -/
theorem balances_nonneg_after_ops (ops : List Op) :
    ∀ st : BankState, NonNeg st → NonNeg (applyOps st ops) := by
  induction ops with
  | nil => exact fun _ h => h
  | cons op ops ih => exact fun st h => ih (applyOp st op) (applyOp_nonneg st op h)

theorem balances_nonneg_after_ops_witness :
    NonNeg racedState ∧
    NonNeg (applyOps racedState
      [Op.dep 1 50 "a", Op.wd 1 120 "b", Op.tr 1 2 30 "c", Op.wd 1 100 "d"]) :=
  ⟨by decide,
    balances_nonneg_after_ops
      [Op.dep 1 50 "a", Op.wd 1 120 "b", Op.tr 1 2 30 "c", Op.wd 1 100 "d"]
      racedState (by decide)⟩

/-- C2: over a store with pairwise distinct account ids, any sequence made
only of committed transfer operations (no deposits or withdrawals) leaves the
sum of all account balances unchanged. -/
theorem transfer_sequence_conserves_total (ops : List Op) :
    ∀ st : BankState, (accountIds st.accounts).Nodup →
      (∀ op ∈ ops, op.isTransfer = true) →
      sumBalances (applyOps st ops) = sumBalances st := by
  induction ops with
  | nil => intro st _ _; rfl
  | cons op ops ih =>
    intro st hnd hops
    have hstep : sumBalances (applyOp st op) = sumBalances st := by
      cases op with
      | dep c a d => exact absurd (hops _ (List.mem_cons_self _ _)) (by simp [Op.isTransfer])
      | wd c a d => exact absurd (hops _ (List.mem_cons_self _ _)) (by simp [Op.isTransfer])
      | tr f t a d => exact applyOp_transfer_sum st f t a d hnd
    have hnd2 : (accountIds (applyOp st op).accounts).Nodup := by
      rw [applyOp_ids]; exact hnd
    have htail := ih (applyOp st op) hnd2 (fun o ho => hops o (List.mem_cons_of_mem _ ho))
    calc sumBalances (applyOps st (op :: ops))
        = sumBalances (applyOps (applyOp st op) ops) := rfl
      _ = sumBalances (applyOp st op) := htail
      _ = sumBalances st := hstep

theorem transfer_sequence_conserves_total_witness :
    (accountIds scenarioAB.accounts).Nodup ∧
    (∀ op ∈ [Op.tr 1 2 500 "x", Op.tr 2 1 800 "y", Op.tr 2 1 9000 "z"],
      op.isTransfer = true) ∧
    sumBalances (applyOps scenarioAB
      [Op.tr 1 2 500 "x", Op.tr 2 1 800 "y", Op.tr 2 1 9000 "z"]) = sumBalances scenarioAB :=
  ⟨by decide, by decide,
    transfer_sequence_conserves_total
      [Op.tr 1 2 500 "x", Op.tr 2 1 800 "y", Op.tr 2 1 9000 "z"]
      scenarioAB (by decide) (by decide)⟩

/-- C3: with account 1 at 5000 and account 2 at 3000, `transferMoney 1 2 500`
succeeds, leaves account 1 at 4500 and account 2 at 3500, and appends exactly
one completed Transfer ledger entry of amount 500. -/
theorem transfer_scenario_concrete :
    transferMoney scenarioAB 1 2 500 "x" =
      .ok (1, { accounts := [⟨1, "A", 4500⟩, ⟨2, "B", 3500⟩],
                ledger := [⟨1, 1, some 2, 500, .transfer, .completed, "x"⟩],
                nextTxId := 2 }) := by decide

/-- The state visible after a service call: the committed state on success,
the unchanged input state when the call threw (nothing was written). -/
def runService (st : BankState) (r : Except BankError (Nat × BankState)) : BankState :=
  match r with
  | .ok (_, st2) => st2
  | .error _ => st

/-- C4 counterexample: account 1 holds 100 and 30000 is requested, so the
balance is strictly below the requested amount, yet `withdrawMoney` fails with
the withdrawal-cap error, not with InsufficientFunds. -/
theorem withdraw_insufficient_counterexample :
    (100 : ℚ) < 30000 ∧
    withdrawMoney lowBalance 1 30000 "y" = .error .maxWithdrawalExceeded ∧
    BankError.maxWithdrawalExceeded ≠ BankError.insufficientBalance := by decide

/-- C4 amended: for a positive requested amount within the 25,000 withdrawal
cap, whenever the account's balance is strictly below the amount,
`withdrawMoney` fails with InsufficientFunds and the store is unchanged: no
balance change and no ledger entry. -/
theorem withdraw_insufficient_amended (st : BankState) (cid : Nat) (amount : ℚ)
    (desc : String) (acc : Account)
    (hfind : findAccount st.accounts cid = some acc)
    (h0 : 0 ≤ acc.balance) (hlt : acc.balance < amount)
    (hcap : amount ≤ MAX_WITHDRAWAL) :
    withdrawMoney st cid amount desc = .error .insufficientBalance ∧
    runService st (withdrawMoney st cid amount desc) = st := by
  have hpos : ¬ amount ≤ 0 := not_le.mpr (lt_of_le_of_lt h0 hlt)
  have hres : withdrawMoney st cid amount desc = .error .insufficientBalance := by
    simp only [withdrawMoney, hfind]
    rw [if_neg hpos, if_neg (not_lt.mpr hcap), if_pos hlt]
  exact ⟨hres, by simp [runService, hres]⟩

theorem withdraw_insufficient_amended_witness :
    withdrawMoney lowBalance 1 200 "y" = .error .insufficientBalance ∧
    runService lowBalance (withdrawMoney lowBalance 1 200 "y") = lowBalance :=
  withdraw_insufficient_amended lowBalance 1 200 "y" ⟨1, "A", 100⟩ (by decide) (by decide)
    (by decide) (by decide)

/-- C5 counterexample: 15000.005 (= 3000001/200) both exceeds the 10,000
transfer cap and has three decimal places, yet `transferMoney` reports the
cap error (LimitExceeded), not the precision error (InvalidAmount). -/
theorem transfer_precheck_order_counterexample :
    hasAtMost2Decimals (3000001 / 200) = false ∧
    (10000 : ℚ) < 3000001 / 200 ∧
    transferMoney scenarioAB 1 2 (3000001 / 200) "x" = .error .maxTransferExceeded ∧
    BankError.maxTransferExceeded ≠ BankError.tooManyDecimals := by decide

/-- C5 amended: `transferMoney` checks positivity first, then the 10,000 cap,
and only then the 2-decimal-places precision; so any amount above the cap
fails with the cap error regardless of its precision, and the precision error
is reported only for positive amounts within the cap. -/
theorem transfer_precheck_order_amended (st : BankState) (cid toC : Nat) (amount : ℚ)
    (desc : String) :
    (MAX_TRANSFER < amount →
      transferMoney st cid toC amount desc = .error .maxTransferExceeded) ∧
    (0 < amount → amount ≤ MAX_TRANSFER → hasAtMost2Decimals amount = false →
      transferMoney st cid toC amount desc = .error .tooManyDecimals) := by
  constructor
  · intro hgt
    have hmax : (0 : ℚ) < MAX_TRANSFER := by norm_num [MAX_TRANSFER]
    unfold transferMoney
    rw [if_neg (not_le.mpr (hmax.trans hgt)), if_pos hgt]
  · intro hpos hle hdec
    unfold transferMoney
    rw [if_neg (not_le.mpr hpos), if_neg (not_lt.mpr hle), if_pos hdec]

theorem transfer_precheck_order_amended_witness :
    transferMoney scenarioAB 1 2 (3000001 / 200) "q" = .error .maxTransferExceeded ∧
    transferMoney scenarioAB 1 2 (1 / 200) "q" = .error .tooManyDecimals :=
  ⟨(transfer_precheck_order_amended scenarioAB 1 2 (3000001 / 200) "q").1 (by decide),
   (transfer_precheck_order_amended scenarioAB 1 2 (1 / 200) "q").2 (by decide) (by decide)
     (by decide)⟩

/-- C6 counterexample: depositing 50 into account 1 creates a ledger entry
whose `from_customer_id` is the deposited account (1) and whose
`to_customer_id` is NULL — the opposite of the claimed shape (from null, to
set) for Deposit entries. -/
theorem deposit_entry_shape_counterexample :
    deposit_money lowBalance 1 50 "d" =
      .ok (1, { accounts := [⟨1, "A", 150⟩],
                ledger := [⟨1, 1, none, 50, .deposit, .completed, "d"⟩],
                nextTxId := 2 }) ∧
    (⟨1, 1, none, 50, .deposit, .completed, "d"⟩ : Transaction).to_customer_id ≠ some 1 ∧
    (⟨1, 1, none, 50, .deposit, .completed, "d"⟩ : Transaction).from_customer_id = 1 := by
  decide

/-- C6 amended: every committed Deposit and Withdrawal entry carries the
acting account in `from_customer_id` and NULL in `to_customer_id`; every
committed Transfer entry carries the sender in `from_customer_id` and the
recipient in `to_customer_id`. -/
theorem ledger_entry_shape_amended (st : BankState) (cid t : Nat) (amount : ℚ)
    (desc : String) :
    (∀ i st2, deposit_money st cid amount desc = .ok (i, st2) →
      st2.ledger = st.ledger ++
        [{ transaction_id := st.nextTxId, from_customer_id := cid, to_customer_id := none,
           amount := amount, transaction_type := .deposit, status := .completed,
           description := desc }]) ∧
    (∀ i st2, withdraw_money st cid amount desc = .ok (i, st2) →
      st2.ledger = st.ledger ++
        [{ transaction_id := st.nextTxId, from_customer_id := cid, to_customer_id := none,
           amount := amount, transaction_type := .withdrawal, status := .completed,
           description := desc }]) ∧
    (∀ i st2, (execute_transfer st cid (some t) amount desc).2 = .ok (i, st2) →
      st2.ledger = st.ledger ++
        [{ transaction_id := st.nextTxId, from_customer_id := cid, to_customer_id := some t,
           amount := amount, transaction_type := .transfer, status := .completed,
           description := desc }]) := by
  refine ⟨?_, ?_, ?_⟩ <;> intro i st2 h
  · obtain ⟨-, acc, -, -, hst2⟩ := deposit_money_ok_inv st st2 cid amount desc i h
    rw [hst2]
  · obtain ⟨-, acc, -, -, hst2⟩ := withdraw_money_ok_inv st st2 cid amount desc i h
    rw [hst2]
  · obtain ⟨-, acc1, -, acc2, -, -, -, hst2⟩ :=
      execute_transfer_ok_inv st st2 cid (some t) amount desc i h
    rw [hst2]

theorem ledger_entry_shape_amended_witness :
    ({ accounts := [⟨1, "A", 150⟩],
       ledger := [⟨1, 1, none, 50, TxKind.deposit, TxStatus.completed, "d"⟩],
       nextTxId := 2 } : BankState).ledger =
      lowBalance.ledger ++ [⟨1, 1, none, 50, TxKind.deposit, TxStatus.completed, "d"⟩] ∧
    ({ accounts := [⟨1, "A", 60⟩],
       ledger := [⟨1, 1, none, 40, TxKind.withdrawal, TxStatus.completed, "w"⟩],
       nextTxId := 2 } : BankState).ledger =
      lowBalance.ledger ++ [⟨1, 1, none, 40, TxKind.withdrawal, TxStatus.completed, "w"⟩] ∧
    ({ accounts := [⟨1, "A", 4500⟩, ⟨2, "B", 3500⟩],
       ledger := [⟨1, 1, some 2, 500, TxKind.transfer, TxStatus.completed, "x"⟩],
       nextTxId := 2 } : BankState).ledger =
      scenarioAB.ledger ++ [⟨1, 1, some 2, 500, TxKind.transfer, TxStatus.completed, "x"⟩] :=
  ⟨(ledger_entry_shape_amended lowBalance 1 2 50 "d").1 1 _ (by decide),
   (ledger_entry_shape_amended lowBalance 1 2 40 "w").2.1 1 _ (by decide),
   (ledger_entry_shape_amended scenarioAB 1 2 500 "x").2.2 1 _ (by decide)⟩

/-- C7 counterexample: on a state where the sender's balance (100) no longer
covers the amount (200), the under-lock re-check inside `execute_transfer`
fails with the generic 'Invalid transfer' error, while the service pre-check
on the very same state fails with 'Insufficient balance' — two different
error kinds. -/
theorem underlock_recheck_error_counterexample :
    (execute_transfer racedState 1 (some 2) 200 "x").2 = .error .invalidTransfer ∧
    transferMoney racedState 1 2 200 "x" = .error .insufficientBalance ∧
    BankError.invalidTransfer ≠ BankError.insufficientBalance := by decide

/-- C7 amended: whenever the authoritative re-validation under the row locks
fails (for insufficient balance or any other reason), `execute_transfer`
raises the generic 'Invalid transfer' error — a different error kind from the
pre-check's 'Insufficient balance'. -/
theorem underlock_recheck_error_amended (st : BankState) (pFrom : Nat) (pTo : Option Nat)
    (amount : ℚ) (desc : String) (h : validate_transfer st pFrom pTo amount = false) :
    (execute_transfer st pFrom pTo amount desc).2 = .error .invalidTransfer := by
  simp [execute_transfer, h]

theorem underlock_recheck_error_amended_witness :
    validate_transfer racedState 1 (some 2) 200 = false ∧
    (execute_transfer racedState 1 (some 2) 200 "x").2 = .error .invalidTransfer :=
  ⟨by decide, underlock_recheck_error_amended racedState 1 (some 2) 200 "x" (by decide)⟩

/-- C8 counterexample: a transfer from account 2 to account 1 acquires the row
locks in the order [2, 1] — sender first — which is not ascending account-ID
order (2 > 1). -/
theorem lock_order_counterexample :
    (execute_transfer racedState 2 (some 1) 5 "d").1 = [2, 1] ∧
    [2, 1] ≠ [1, 2] ∧ ¬ (2 : Nat) ≤ 1 := by decide

/-- C8 amended: `execute_transfer` always acquires the two row locks in call
order — the sender's row first, then the recipient's row — regardless of
which account ID is smaller. -/
theorem lock_order_amended (st : BankState) (pFrom t : Nat) (amount : ℚ) (desc : String) :
    (execute_transfer st pFrom (some t) amount desc).1 = [pFrom, t] := rfl

/-- C9 counterexample: two `getBalance` calls on the same unchanged store
return different results, because the `last_updated` field is the wall-clock
time of each call. -/
theorem getbalance_repeat_counterexample :
    getBalance racedState 1 0 ≠ getBalance racedState 1 1 := by decide

/-- Concrete store with two ledger entries, for exercising the history read. -/
def histState : BankState :=
  { accounts := [⟨1, "A", 100⟩, ⟨2, "B", 0⟩],
    ledger := [⟨1, 1, some 2, 25, .transfer, .completed, "t"⟩,
               ⟨2, 2, none, 10, .deposit, .completed, "u"⟩],
    nextTxId := 3 }

/-- The store `histState` with different account balances but the identical
ledger. -/
def histStateMoved : BankState :=
  { accounts := [⟨1, "A", 75⟩, ⟨2, "B", 35⟩],
    ledger := [⟨1, 1, some 2, 25, .transfer, .completed, "t"⟩,
               ⟨2, 2, none, 10, .deposit, .completed, "u"⟩],
    nextTxId := 3 }

/-- C9 amended: with no intervening mutation, repeated `getBalance` calls
agree on everything except `last_updated` (customer id, name and balance are
identical, and a failing call fails identically), and the `last_updated`
field of a successful call is exactly the call-time timestamp; repeated
`getTransactionHistory` (listHistory) calls with the same arguments return
identical results — the result is determined by the ledger contents and the
arguments alone, so it is even identical across two states that agree only
on the ledger. -/
theorem idempotent_reads_amended (st st2 : BankState) (cid t1 t2 limit offset : Nat)
    (tf : Option TxKind) (sf : Option TxStatus) :
    balanceView (getBalance st cid t1) = balanceView (getBalance st cid t2) ∧
    (∀ d, getBalance st cid t1 = .ok d → d.last_updated = t1) ∧
    (st.ledger = st2.ledger →
      getTransactionHistory st cid limit offset tf sf =
        getTransactionHistory st2 cid limit offset tf sf) := by
  refine ⟨?_, ?_, ?_⟩
  · unfold getBalance
    cases findAccount st.accounts cid <;> rfl
  · intro d h
    unfold getBalance at h
    cases hf : findAccount st.accounts cid with
    | none => rw [hf] at h; exact absurd h (by simp)
    | some u => rw [hf] at h; cases h; rfl
  · intro h
    unfold getTransactionHistory
    rw [h]

theorem idempotent_reads_amended_witness :
    balanceView (getBalance histState 1 0) = balanceView (getBalance histState 1 5) ∧
    (⟨1, "A", 100, 0⟩ : BalanceData).last_updated = 0 ∧
    getTransactionHistory histState 2 10 0 none none =
      getTransactionHistory histStateMoved 2 10 0 none none :=
  ⟨(idempotent_reads_amended histState histStateMoved 1 0 5 10 0 none none).1,
   (idempotent_reads_amended histState histStateMoved 1 0 5 10 0 none none).2.1
     ⟨1, "A", 100, 0⟩ (by decide),
   (idempotent_reads_amended histState histStateMoved 2 0 5 10 0 none none).2.2 (by decide)⟩

/-- Concrete store holding one completed transfer entry from account 1 to
account 2. -/
def ledgeredState : BankState :=
  { accounts := [⟨1, "A", 100⟩, ⟨2, "B", 0⟩],
    ledger := [⟨1, 1, some 2, 25, .transfer, .completed, "t"⟩],
    nextTxId := 2 }

/-- C10: for an existing transaction entry, `getTransactionDetails` returns
the entry exactly when the caller is its `from_customer_id` or its
`to_customer_id`, and fails with the access-denied error for every other
caller. -/
theorem transaction_details_access_control (st : BankState)
    (customerId transactionId : Nat) (t : Transaction)
    (h : findTransaction st transactionId = some t) :
    (getTransactionDetails st customerId transactionId = .ok t ↔
      (t.from_customer_id = customerId ∨ t.to_customer_id = some customerId)) ∧
    (¬ (t.from_customer_id = customerId ∨ t.to_customer_id = some customerId) →
      getTransactionDetails st customerId transactionId = .error .accessDenied) := by
  simp only [getTransactionDetails, h]
  by_cases hc : t.from_customer_id ≠ customerId ∧ t.to_customer_id ≠ some customerId
  · rw [if_pos hc]
    refine ⟨⟨fun he => absurd he (by simp), fun hor => ?_⟩, fun _ => rfl⟩
    rcases hor with h1 | h1
    · exact absurd h1 hc.1
    · exact absurd h1 hc.2
  · rw [if_neg hc]
    refine ⟨⟨fun _ => ?_, fun _ => rfl⟩, fun hnor => absurd (not_or.mp hnor) hc⟩
    by_contra hor
    exact hc (not_or.mp hor)

theorem transaction_details_access_control_witness :
    (getTransactionDetails ledgeredState 2 1 =
        .ok ⟨1, 1, some 2, 25, TxKind.transfer, TxStatus.completed, "t"⟩ ↔
      ((⟨1, 1, some 2, 25, TxKind.transfer, TxStatus.completed, "t"⟩ :
          Transaction).from_customer_id = 2 ∨
       (⟨1, 1, some 2, 25, TxKind.transfer, TxStatus.completed, "t"⟩ :
          Transaction).to_customer_id = some 2)) ∧
    (¬ ((⟨1, 1, some 2, 25, TxKind.transfer, TxStatus.completed, "t"⟩ :
          Transaction).from_customer_id = 2 ∨
        (⟨1, 1, some 2, 25, TxKind.transfer, TxStatus.completed, "t"⟩ :
          Transaction).to_customer_id = some 2) →
      getTransactionDetails ledgeredState 2 1 = .error .accessDenied) :=
  transaction_details_access_control ledgeredState 2 1
    ⟨1, 1, some 2, 25, TxKind.transfer, TxStatus.completed, "t"⟩ (by decide)

end KodBank
